import Mathlib

/-!
Verification of the frame-timestamp sampling, blur-classification, probe and
retry logic of the video-utilities repository.

The scripts are shallowly embedded: durations, timestamps and pixel
intensities are rationals; the seedable pseudo-random source consumed by
`random.uniform` / `random.sample` is an explicit tape argument (a unit draw
in `[0, 1)` per `uniform` call, an index draw per `sample` step); fallible
paths (a skipped video, a raised exception) are `Option` / `Except` values.
Every definition is translated from the named source file and lines.
-/

namespace VideoSpec

/-- Python int() truncation toward zero applied to a rational value. -/
def pyInt (q : ℚ) : ℤ := if 0 ≤ q then ⌊q⌋ else ⌈q⌉

/-- Arithmetic mean of a list of rationals, as numpy.mean computes it
(the empty list yields 0 here, a case none of the claims touch). -/
def mean (xs : List ℚ) : ℚ := xs.sum / xs.length

/-- Population variance of a list of rationals, as numpy.var / cv2 .var()
compute it: mean of the squared deviations from the mean. -/
def variance (xs : List ℚ) : ℚ :=
  ((xs.map (fun x => (x - mean xs) ^ 2)).sum) / xs.length

/-- Single-channel raster image: an intensity field over the plane together
with the pixel-grid size. Keeping the field total over ℤ × ℤ makes the
border handling of the library convolutions a property of the field itself;
the claims below only evaluate constant fields, where every border mode
agrees. -/
structure GrayImage where
  height : ℕ
  width : ℕ
  pixel : ℤ → ℤ → ℚ

/-- Discrete Laplacian response at one pixel: the 3x3 kernel
[[0,1,0],[1,-4,1],[0,1,0]] used by cv2.Laplacian (ksize 1) and
scipy.ndimage.laplace. -/
def laplacianAt (g : GrayImage) (i j : ℤ) : ℚ :=
  g.pixel (i - 1) j + g.pixel (i + 1) j + g.pixel i (j - 1) + g.pixel i (j + 1)
    - 4 * g.pixel i j

/-- Laplacian response over the whole pixel grid, row major. -/
def laplacianField (g : GrayImage) : List ℚ :=
  (List.range g.height).flatMap
    (fun i => (List.range g.width).map (fun j => laplacianAt g (i : ℤ) (j : ℤ)))

namespace Extractor1

/-- Even timestamps computed by process_video (av1frameextractor1.py lines
78-88; av1frameextractor5.py lines 107-117 are identical): start_time = 60,
end_time = duration - 60, interval = (end_time - start_time) / (num_frames + 1),
and timestamp i = start_time + (i + 1) * interval for i = 0 .. num_frames - 1. -/
def even_list (duration : ℚ) (num_frames : ℕ) : List ℚ :=
  (List.range num_frames).map
    (fun (i : ℕ) => 60 + ((i : ℚ) + 1) * (((duration - 60) - 60) / ((num_frames : ℚ) + 1)))

/-- Duration gate of process_video (av1frameextractor1.py lines 74-80): a
video with duration <= 120 is skipped and yields no timestamps at all;
otherwise the even timestamps are produced. -/
def process_video_even (duration : ℚ) (num_frames : ℕ) : Option (List ℚ) :=
  if duration ≤ 120 then none else some (even_list duration num_frames)

/-- Integer population range(int(start_time), int(end_time)) that
process_video line 83 samples from: the integers from 60 up to but excluding
int(duration - 60). -/
def population (duration : ℚ) : List ℤ :=
  (List.range (pyInt (duration - 60) - 60).toNat).map (fun (i : ℕ) => 60 + (i : ℤ))

/-- Draw loop of random.sample: each step consumes one tape entry to pick a
position in the remaining population and removes the chosen element, so the
draws are without replacement. -/
def sampleGo (tape : ℕ → ℕ) : List ℤ → ℕ → ℕ → List ℤ
  | _, 0, _ => []
  | pop, k + 1, s =>
      pop.getD (tape s % pop.length) 0 ::
        sampleGo tape (pop.eraseIdx (tape s % pop.length)) k (s + 1)

/-- random.sample(population, k): raises ValueError (None here) when k
exceeds the population size, otherwise returns k draws without
replacement. -/
def sample (pop : List ℤ) (k : ℕ) (tape : ℕ → ℕ) : Option (List ℤ) :=
  if k ≤ pop.length then some (sampleGo tape pop k 0) else none

/-- random_timestamps of process_video (av1frameextractor1.py line 83):
random.sample(range(int(start_time), int(end_time)), num_frames). -/
def random_timestamps (duration : ℚ) (num_frames : ℕ) (tape : ℕ → ℕ) :
    Option (List ℤ) :=
  sample (population duration) num_frames tape

/-- is_blurry of av1frameextractor1.py lines 53-67: cv2.imread an image,
convert to grayscale, compare the variance of the Laplacian response against
the threshold. cv2.imread returns None for an unreadable file and the
cvtColor call then raises; the function has no try/except, so the
undecodable case is an escaping exception, modelled as Except.error. -/
def is_blurry (img : Option GrayImage) (threshold : ℚ) : Except Unit Bool :=
  match img with
  | none => Except.error ()
  | some g => Except.ok (decide (variance (laplacianField g) < threshold))

end Extractor1

namespace Extractor2

/-- numpy.linspace start stop num with the default endpoint=True: num points
from start to stop inclusive; a single point is start alone. -/
def linspace (start stop : ℚ) (num : ℕ) : List ℚ :=
  if num = 0 then []
  else if num = 1 then [start]
  else (List.range num).map
    (fun (i : ℕ) => start + (i : ℚ) * ((stop - start) / ((num : ℚ) - 1)))

/-- Even timestamps of process_videos (av1frameextractor2.py line 56):
np.linspace(60, duration - 60, num_frames), which includes both interval
endpoints among the returned timestamps. -/
def even_timestamps (duration : ℚ) (num_frames : ℕ) : List ℚ :=
  linspace 60 (duration - 60) num_frames

end Extractor2

namespace Extractor3

/-- Even timestamps of process_video (av1frameextractor3.py lines 62-69;
av1frameextractor4.py lines 62-69 are identical):
valid_duration = max(0, duration - 120), interval = valid_duration /
(num_frames + 1) when valid_duration > 0 and 0 otherwise, and the loop still
emits timestamp 60 + i * interval for i = 1 .. num_frames. -/
def even_list (duration : ℚ) (num_frames : ℕ) : List ℚ :=
  (List.range num_frames).map
    (fun (i : ℕ) =>
      60 + ((i : ℚ) + 1) *
        (if 0 < max 0 (duration - 120)
         then max 0 (duration - 120) / ((num_frames : ℚ) + 1) else 0))

/-- Outcome of one decoder invocation at a timestamp followed by the blur
check: the ffmpeg call exits non-zero (CalledProcessError), or it succeeds
and the frame is classified blurry, or it succeeds and the frame is sharp. -/
inductive AttemptOutcome
  | decodeFail : AttemptOutcome
  | blurryFrame : AttemptOutcome
  | sharp : AttemptOutcome
deriving DecidableEq

/-- Result of extract_frame for one timestamp: how many times the decoder
was invoked, whether a frame was accepted, and whether the
failed-after-max_retries report was emitted. -/
structure ExtractResult where
  invocations : ℕ
  accepted : Bool
  abandoned : Bool
deriving DecidableEq

/-- Fixed retry bound of extract_frame (av1frameextractor3.py line 88,
av1frameextractor4.py line 88). -/
def max_retries : ℕ := 3

/-- Retry loop of extract_frame (av1frameextractor3.py lines 99-116,
av1frameextractor4.py lines 96-112): while retries < max_retries, invoke the
decoder at the same timestamp; a sharp frame breaks the loop, while a
non-zero exit (caught CalledProcessError) or a blurry frame increments
retries. Returns the invocation count and whether a frame was accepted,
indexed by the attempt number so each iteration sees its own outcome. -/
def retry_run (out : ℕ → AttemptOutcome) : ℕ → ℕ → ℕ × Bool
  | _, 0 => (0, false)
  | attempt, remaining + 1 =>
      match out attempt with
      | AttemptOutcome.sharp => (1, true)
      | _ =>
          let r := retry_run out (attempt + 1) remaining
          (r.1 + 1, r.2)

/-- extract_frame (av1frameextractor3.py lines 88-119, av1frameextractor4.py
lines 88-115): when the output file already exists and is classified
non-blurry the function returns at once, invoking nothing; otherwise it runs
the bounded retry loop, and the failed-after-retries report (retries ==
max_retries) is emitted exactly when no attempt produced a sharp frame.
The function deletes no file on any path. -/
def extract_frame (file_present existing_blurry : Bool)
    (out : ℕ → AttemptOutcome) : ExtractResult :=
  if file_present && !existing_blurry then ⟨0, true, false⟩
  else
    let r := retry_run out 0 max_retries
    ⟨r.1, r.2, !r.2⟩

/-- Per-timestamp loop of process_video: extract_frame is called for every
planned timestamp in turn; since extract_frame is total (every exception is
handled inside it), the batch always yields one result per timestamp. -/
def process_batch (ts : List ℚ) (file_present existing_blurry : ℚ → Bool)
    (out : ℚ → ℕ → AttemptOutcome) : List ExtractResult :=
  ts.map (fun t => extract_frame (file_present t) (existing_blurry t) (out t))

end Extractor3

namespace Extractor5

/-- Downscale step of is_blurry (av1frameextractor5.py lines 74-76): resize
the grayscale image to (width / factor, height / factor) with integer
division. The library resampler is modelled as pixel subsampling; every
resampler whose kernel weights sum to one agrees with it on the constant
intensity fields the claims evaluate. -/
def downsample (g : GrayImage) (factor : ℕ) : GrayImage :=
  ⟨g.height / factor, g.width / factor,
   fun i j => g.pixel ((factor : ℤ) * i) ((factor : ℤ) * j)⟩

/-- Strongest-edge selection of is_blurry (av1frameextractor5.py lines
85-87): np.partition(flat, -k)[-k:] keeps the k largest absolute responses;
when k = int(size * edge_percent) is 0, the Python slice [-0:] keeps the
whole array. -/
def top_edges (xs : List ℚ) (k : ℕ) : List ℚ :=
  if k = 0 then xs else (xs.mergeSort (fun a b => decide (b ≤ a))).take k

/-- is_blurry of av1frameextractor5.py lines 58-95: grayscale, downscale,
absolute Laplacian response, variance of the int(size * edge_percent)
strongest responses compared against the threshold; any failure to open or
process the image is caught and conservatively classified blurry. -/
def is_blurry (img : Option GrayImage) (threshold : ℚ)
    (downscale_factor : ℕ) (edge_percent : ℚ) : Bool :=
  match img with
  | none => true
  | some g =>
      let lap := (laplacianField (downsample g downscale_factor)).map (fun x => |x|)
      decide (variance (top_edges lap (pyInt ((lap.length : ℚ) * edge_percent)).toNat)
        < threshold)

end Extractor5

namespace MultiFormat

/-- Random timestamps of process_video (av1frameextractor.py lines 125-134):
random.uniform(start_time, end_time) with start_time = 60 and end_time =
duration - 60, repeated num_snapshots times; uniform(a, b) is a + u * (b - a)
for a unit draw u from the seedable generator. -/
def random_timestamps (duration : ℚ) (num_snapshots : ℕ) (u : ℕ → ℚ) : List ℚ :=
  (List.range num_snapshots).map
    (fun (i : ℕ) => 60 + u i * ((duration - 60) - 60))

end MultiFormat

namespace Extvid7

/-- Fields of the ffprobe JSON document that get_video_info reads; each is
optional since the probe may omit it, and has_video_stream records whether
any stream with codec_type video is present at all. -/
structure ProbeData where
  has_video_stream : Bool
  duration_field : Option ℚ
  nb_frames_field : Option ℤ
  avg_frame_rate_field : Option ℚ
  width_field : Option ℕ
  height_field : Option ℕ

/-- Metadata record returned by a successful get_video_info call. -/
structure VideoInfo where
  duration : ℚ
  nb_frames : ℤ
  fps : ℚ
  width : ℕ
  height : ℕ
deriving DecidableEq

/-- get_video_info (extvid7.py lines 12-27; extvid6.py lines 14-36 are the
same computation): selecting a video stream, reading duration,
avg_frame_rate, width or height raises inside the try block when the field
is absent and the except handler returns None; the nb_frames field alone is
read with video_stream.get('nb_frames', 0), substituting the default 0 when
it is missing. -/
def get_video_info (p : ProbeData) : Option VideoInfo :=
  if p.has_video_stream then
    match p.duration_field, p.avg_frame_rate_field, p.width_field, p.height_field with
    | some d, some fr, some w, some h =>
        some ⟨d, p.nb_frames_field.getD 0, fr, w, h⟩
    | _, _, _, _ => none
  else none

/-- Mode-3 (Combined) timestamps of extract_frames (extvid7.py lines 38-56;
extvid6.py lines 74-92 are identical): start_time = 100 / fps, interval =
(duration - start_time) / num_frames, even timestamps start_time + i *
interval * 2 for i < num_frames // 2, random timestamps
uniform(start_time, duration) for the remaining num_frames - num_frames // 2
draws, concatenated and sorted. No epsilon deduplication is performed. -/
def combined_timestamps (fps duration : ℚ) (num_frames : ℕ) (u : ℕ → ℚ) :
    List ℚ :=
  let start_time := 100 / fps
  let interval := (duration - start_time) / (num_frames : ℚ)
  let evens := (List.range (num_frames / 2)).map
    (fun (i : ℕ) => start_time + (i : ℚ) * interval * 2)
  let rands := (List.range (num_frames - num_frames / 2)).map
    (fun (i : ℕ) => start_time + u i * (duration - start_time))
  (evens ++ rands).mergeSort (fun a b => decide (a ≤ b))

end Extvid7

namespace Vidinfo

/-- Duration used by vid_info (vidinfo.py lines 23-27):
int(float(video_stream duration)) when the field is present; the KeyError
handler substitutes the default 600 when it is missing. -/
def duration_value (duration_field : Option ℚ) : ℤ :=
  match duration_field with
  | some d => pyInt d
  | none => 600

/-- Removal decision of vid_info (vidinfo.py line 31): the file is removed
when duration < 600 or the resolution is below 1920 x 1080; with a missing
duration field the default 600 keeps the duration test false. -/
def removes (width height : ℕ) (duration_field : Option ℚ) : Bool :=
  decide (duration_value duration_field < 600)
    || (decide (width < 1920) && decide (height < 1080))

end Vidinfo

/-! ### Theorems -/

/-- Elements of the Laplacian field of a constant-intensity image are all
zero: each reads five equal neighbours with kernel weights summing to 0. -/
theorem laplacianField_const (m n : ℕ) (c : ℚ) :
    ∀ x ∈ laplacianField ⟨m, n, fun _ _ => c⟩, x = 0 := by
  intro x hx
  simp only [laplacianField, List.mem_flatMap, List.mem_map, List.mem_range] at hx
  obtain ⟨i, _, j, _, rfl⟩ := hx
  simp only [laplacianAt]
  ring

/-- Variance of a list whose elements are all zero is zero. -/
theorem variance_of_zero (xs : List ℚ) (h : ∀ x ∈ xs, x = 0) : variance xs = 0 := by
  have hsum : xs.sum = 0 := List.sum_eq_zero h
  have hmean : mean xs = 0 := by simp [mean, hsum]
  have : ∀ y ∈ xs.map (fun x => (x - mean xs) ^ 2), y = 0 := by
    intro y hy
    simp only [List.mem_map] at hy
    obtain ⟨x, hx, rfl⟩ := hy
    rw [h x hx, hmean]
    ring
  simp [variance, List.sum_eq_zero this]

/-- Indexing a mapped range with a default value reads off the function. -/
theorem getD_map_range (f : ℕ → ℚ) (n i : ℕ) (h : i < n) :
    ((List.range n).map f).getD i 0 = f i := by
  rw [List.getD_eq_getElem?_getD, List.getElem?_map, List.getElem?_range h]
  rfl

/-- Closed form of the av1frameextractor1.py even timestamps. -/
theorem extractor1_even_getD (duration : ℚ) (n i : ℕ) (hi : i < n) :
    (Extractor1.even_list duration n).getD i 0 =
      60 + ((i : ℚ) + 1) * ((duration - 120) / ((n : ℚ) + 1)) := by
  rw [Extractor1.even_list, getD_map_range _ _ _ hi]
  ring_nf

/-- Closed form of the av1frameextractor2.py linspace timestamps when at
least two points are requested. -/
theorem extractor2_even_getD (duration : ℚ) (n i : ℕ) (h2 : 2 ≤ n) (hi : i < n) :
    (Extractor2.even_timestamps duration n).getD i 0 =
      60 + (i : ℚ) * ((duration - 120) / ((n : ℚ) - 1)) := by
  rw [Extractor2.even_timestamps, Extractor2.linspace,
    if_neg (by omega : ¬ n = 0), if_neg (by omega : ¬ n = 1), getD_map_range _ _ _ hi]
  ring_nf

/-- Concrete scenario of the Even policy: duration 300, margin 60, count 4
produce the timestamps 96, 132, 168, 204 in order
(av1frameextractor1.py lines 78-88 and av1frameextractor5.py lines 107-117). -/
theorem even_sampler_scenario_300_60_4 :
    Extractor1.even_list 300 4 = [96, 132, 168, 204] := by
  simp [Extractor1.even_list, List.range_succ]
  norm_num

/-- Claim C1 (counterexample): av1frameextractor2.py computes its Even
timestamps with np.linspace(60, duration - 60, count), so for the valid
request duration 300, margin 60, count 4 the timestamp 60 is returned and
lies on the boundary, not strictly inside the open interval (60, 240). -/
theorem even_linspace_hits_margin :
    ¬ (∀ x ∈ Extractor2.even_timestamps 300 4, 60 < x ∧ x < 300 - 60) := by
  intro h
  have hlist : Extractor2.even_timestamps 300 4 = [60, 120, 180, 240] := by
    simp [Extractor2.even_timestamps, Extractor2.linspace, List.range_succ]
    norm_num
  have hm : (60 : ℚ) ∈ Extractor2.even_timestamps 300 4 := by
    rw [hlist]
    simp
  exact absurd (h 60 hm).1 (lt_irrefl 60)

/-- Claim C1 (amended): for every valid request (count > 0, 120 < duration,
margin fixed at 60 by the scripts), the even timestamps of
av1frameextractor1.py are strictly increasing, consecutive differences all
equal (duration - 120) / (count + 1), and every timestamp lies strictly
inside the open interval (60, duration - 60); the even timestamps of
av1frameextractor2.py (np.linspace) are strictly increasing with equal
consecutive differences (duration - 120) / (count - 1), but lie only in the
closed interval [60, duration - 60], both endpoints included. -/
theorem even_sampler_spacing_amended (duration : ℚ) (n : ℕ)
    (hn : 0 < n) (hd : 120 < duration) :
    ((Extractor1.even_list duration n).length = n
      ∧ (∀ i j : ℕ, i < j → j < n →
          (Extractor1.even_list duration n).getD i 0 <
            (Extractor1.even_list duration n).getD j 0)
      ∧ (∀ i : ℕ, i + 1 < n →
          (Extractor1.even_list duration n).getD (i + 1) 0 -
            (Extractor1.even_list duration n).getD i 0 =
              (duration - 120) / ((n : ℚ) + 1))
      ∧ (∀ x ∈ Extractor1.even_list duration n, 60 < x ∧ x < duration - 60))
    ∧ ((Extractor2.even_timestamps duration n).length = n
      ∧ (∀ i j : ℕ, i < j → j < n →
          (Extractor2.even_timestamps duration n).getD i 0 <
            (Extractor2.even_timestamps duration n).getD j 0)
      ∧ (∀ i : ℕ, i + 1 < n →
          (Extractor2.even_timestamps duration n).getD (i + 1) 0 -
            (Extractor2.even_timestamps duration n).getD i 0 =
              (duration - 120) / ((n : ℚ) - 1))
      ∧ (∀ x ∈ Extractor2.even_timestamps duration n, 60 ≤ x ∧ x ≤ duration - 60)) := by
  have hd120 : (0 : ℚ) < duration - 120 := by linarith
  have hn1 : (0 : ℚ) < (n : ℚ) + 1 := by positivity
  have hitv : (0 : ℚ) < (duration - 120) / ((n : ℚ) + 1) := div_pos hd120 hn1
  refine ⟨⟨?_, ?_, ?_, ?_⟩, ?_, ?_, ?_, ?_⟩
  · simp [Extractor1.even_list]
  · intro i j hij hj
    rw [extractor1_even_getD duration n i (hij.trans hj),
      extractor1_even_getD duration n j hj]
    have hcast : (i : ℚ) < (j : ℚ) := by exact_mod_cast hij
    have := mul_lt_mul_of_pos_right
      (show (i : ℚ) + 1 < (j : ℚ) + 1 by linarith) hitv
    linarith
  · intro i h1
    rw [extractor1_even_getD duration n (i + 1) h1,
      extractor1_even_getD duration n i (by omega)]
    push_cast
    ring
  · intro x hx
    simp only [Extractor1.even_list, List.mem_map, List.mem_range] at hx
    obtain ⟨i, hi, rfl⟩ := hx
    have hval : ((i : ℚ) + 1) * (((duration - 60) - 60) / ((n : ℚ) + 1)) =
        ((i : ℚ) + 1) * ((duration - 120) / ((n : ℚ) + 1)) := by ring_nf
    have hpos : (0 : ℚ) < ((i : ℚ) + 1) * ((duration - 120) / ((n : ℚ) + 1)) :=
      mul_pos (by positivity) hitv
    have hin : (i : ℚ) + 1 ≤ (n : ℚ) := by exact_mod_cast hi
    have hub : ((i : ℚ) + 1) * ((duration - 120) / ((n : ℚ) + 1)) <
        duration - 120 := by
      have h1 : ((i : ℚ) + 1) * ((duration - 120) / ((n : ℚ) + 1)) ≤
          (n : ℚ) * ((duration - 120) / ((n : ℚ) + 1)) :=
        mul_le_mul_of_nonneg_right hin hitv.le
      have h2 : (n : ℚ) * ((duration - 120) / ((n : ℚ) + 1)) <
          ((n : ℚ) + 1) * ((duration - 120) / ((n : ℚ) + 1)) :=
        mul_lt_mul_of_pos_right (by linarith) hitv
      have h3 : ((n : ℚ) + 1) * ((duration - 120) / ((n : ℚ) + 1)) =
          duration - 120 := by
        field_simp
      linarith
    constructor
    · rw [hval] at *
      linarith
    · rw [hval]
      linarith
  · rw [Extractor2.even_timestamps, Extractor2.linspace]
    split_ifs with h0 h1
    · omega
    · simp [h1]
    · simp
  · intro i j hij hj
    rcases Nat.lt_or_ge n 2 with h2 | h2
    · omega
    · have hstep : (0 : ℚ) < (duration - 120) / ((n : ℚ) - 1) := by
        apply div_pos hd120
        have : (2 : ℚ) ≤ (n : ℚ) := by exact_mod_cast h2
        linarith
      rw [extractor2_even_getD duration n i h2 (hij.trans hj),
        extractor2_even_getD duration n j h2 hj]
      have hcast : (i : ℚ) < (j : ℚ) := by exact_mod_cast hij
      have := mul_lt_mul_of_pos_right hcast hstep
      linarith
  · intro i h1
    have h2 : 2 ≤ n := by omega
    rw [extractor2_even_getD duration n (i + 1) h2 h1,
      extractor2_even_getD duration n i h2 (by omega)]
    push_cast
    ring
  · intro x hx
    rw [Extractor2.even_timestamps, Extractor2.linspace] at hx
    split_ifs at hx with h0 h1
    · simp at hx
    · simp only [List.mem_singleton] at hx
      subst hx
      exact ⟨le_refl 60, by linarith⟩
    · simp only [List.mem_map, List.mem_range] at hx
      obtain ⟨i, hi, rfl⟩ := hx
      have h2 : 2 ≤ n := by omega
      have hn2 : (2 : ℚ) ≤ (n : ℚ) := by exact_mod_cast h2
      have hstep : (0 : ℚ) < ((duration - 60) - 60) / ((n : ℚ) - 1) := by
        apply div_pos (by linarith)
        linarith
      have hile : (i : ℚ) ≤ (n : ℚ) - 1 := by
        have : (i : ℚ) + 1 ≤ (n : ℚ) := by exact_mod_cast hi
        linarith
      constructor
      · have : (0 : ℚ) ≤ (i : ℚ) * (((duration - 60) - 60) / ((n : ℚ) - 1)) :=
          mul_nonneg (by positivity) hstep.le
        linarith
      · have hmax : (i : ℚ) * (((duration - 60) - 60) / ((n : ℚ) - 1)) ≤
            ((n : ℚ) - 1) * (((duration - 60) - 60) / ((n : ℚ) - 1)) :=
          mul_le_mul_of_nonneg_right hile hstep.le
        have hne : (n : ℚ) - 1 ≠ 0 := by
          have : (0 : ℚ) < (n : ℚ) - 1 := by linarith
          exact this.ne'
        have hcancel : ((n : ℚ) - 1) * (((duration - 60) - 60) / ((n : ℚ) - 1)) =
            (duration - 60) - 60 := by
          rw [mul_div_assoc']
          rw [mul_comm]
          rw [mul_div_assoc]
          rw [div_self hne, mul_one]
        linarith

/-- Claim C1 (witness): the theorem applies at the concrete valid request
duration 300, count 4. -/
theorem even_sampler_spacing_amended_witness :
    (Extractor1.even_list 300 4).length = 4 ∧
      (Extractor2.even_timestamps 300 4).length = 4 :=
  ⟨(even_sampler_spacing_amended 300 4 (by norm_num) (by norm_num)).1.1,
   (even_sampler_spacing_amended 300 4 (by norm_num) (by norm_num)).2.1⟩

/-- Claim C3 (counterexample): for the zero-width usable interval
duration = 120 = 2 * margin and count 4, av1frameextractor3.py does not fail
and emits four timestamps, all equal to 60: valid_duration is 0, the
interval guard sets interval to 0, and the extraction loop still runs. -/
theorem zero_width_interval_emits_timestamps :
    Extractor3.even_list 120 4 = [60, 60, 60, 60]
      ∧ Extractor3.even_list 120 4 ≠ [] := by
  have h : Extractor3.even_list 120 4 = [60, 60, 60, 60] := by
    simp [Extractor3.even_list, List.range_succ]
  refine ⟨h, ?_⟩
  rw [h]
  simp

/-- Claim C3 (amended): no InvalidRequest failure exists in the code. For
duration <= 120 (which covers the zero-width interval duration = 2 * margin
and every duration <= 0), av1frameextractor1.py skips the video and produces
no timestamps, while av1frameextractor3.py proceeds and emits count even
timestamps all equal to the margin 60; for count = 0 the even list is empty
without any failure. -/
theorem degenerate_request_behaviour (duration : ℚ) (n : ℕ)
    (hd : duration ≤ 120) :
    Extractor1.process_video_even duration n = none
      ∧ (Extractor3.even_list duration n).length = n
      ∧ (∀ x ∈ Extractor3.even_list duration n, x = 60)
      ∧ (∀ e : ℚ, Extractor1.even_list e 0 = []) := by
  refine ⟨?_, ?_, ?_, ?_⟩
  · simp [Extractor1.process_video_even, hd]
  · simp [Extractor3.even_list]
  · intro x hx
    have hmax : max 0 (duration - 120) = 0 := max_eq_left (by linarith)
    simp only [Extractor3.even_list, List.mem_map, List.mem_range] at hx
    obtain ⟨i, _, rfl⟩ := hx
    rw [hmax, if_neg (lt_irrefl 0)]
    ring
  · intro e
    simp [Extractor1.even_list]

/-- Claim C3 (witness): the theorem applies at the concrete boundary request
duration 120, count 4. -/
theorem degenerate_request_behaviour_witness :
    Extractor1.process_video_even 120 4 = none ∧
      (Extractor3.even_list 120 4).length = 4 :=
  ⟨(degenerate_request_behaviour 120 4 (by norm_num)).1,
   (degenerate_request_behaviour 120 4 (by norm_num)).2.1⟩

/-- Claim C4 (counterexample): the Combined (mode 3) sampler performs no
epsilon deduplication. With fps 1, duration 300, count 2 and a unit draw of
0, the single even timestamp 100 and the single random draw
uniform(100, 300) = 100 coincide, so the result [100, 100] contains two
timestamps within every positive epsilon (shown here for epsilon = 1). -/
theorem combined_duplicate_timestamps :
    ¬ List.Pairwise (fun a b : ℚ => 1 ≤ |a - b|)
      (Extvid7.combined_timestamps 1 300 2 (fun _ => 0)) := by
  have hlist : Extvid7.combined_timestamps 1 300 2 (fun _ => 0) = [100, 100] := by
    rw [Extvid7.combined_timestamps]
    norm_num [List.range_succ]
    rw [List.mergeSort_eq_self]
    simp [List.sorted_cons]
  rw [hlist]
  intro h
  rcases h with _ | ⟨hpair, _⟩
  have := hpair 100 (by simp)
  norm_num at this

/-- Claim C4 (amended): the Combined (mode 3) sampler concatenates
count // 2 even timestamps with count - count // 2 uniform draws and sorts
the result; it returns exactly count timestamps, non-decreasing, each lying
in [start_time, duration) for start_time = 100 / fps, but it never
deduplicates, so coincident timestamps are possible. -/
theorem combined_sorted_count (fps duration : ℚ) (n : ℕ) (u : ℕ → ℚ)
    (_hfps : 0 < fps) (hstart : 100 / fps < duration) (hn : 0 < n)
    (hu : ∀ i, 0 ≤ u i ∧ u i < 1) :
    (Extvid7.combined_timestamps fps duration n u).length = n
      ∧ List.Sorted (· ≤ ·) (Extvid7.combined_timestamps fps duration n u)
      ∧ ∀ x ∈ Extvid7.combined_timestamps fps duration n u,
          100 / fps ≤ x ∧ x < duration := by
  have hds : (0 : ℚ) < duration - 100 / fps := by linarith
  have hnq : (0 : ℚ) < (n : ℚ) := by exact_mod_cast hn
  have hitv : (0 : ℚ) < (duration - 100 / fps) / (n : ℚ) := div_pos hds hnq
  refine ⟨?_, ?_, ?_⟩
  · rw [Extvid7.combined_timestamps]
    rw [(List.mergeSort_perm _ _).length_eq]
    simp
    omega
  · rw [Extvid7.combined_timestamps]
    exact List.sorted_mergeSort' _
  · intro x hx
    rw [Extvid7.combined_timestamps] at hx
    rw [(List.mergeSort_perm _ _).mem_iff] at hx
    rcases List.mem_append.mp hx with hev | hrd
    · simp only [List.mem_map, List.mem_range] at hev
      obtain ⟨i, hi, rfl⟩ := hev
      have h2i : 2 * i + 2 ≤ n := by omega
      have h2iq : 2 * (i : ℚ) ≤ (n : ℚ) - 2 := by
        have : (2 * i + 2 : ℚ) ≤ (n : ℚ) := by exact_mod_cast h2i
        push_cast at this
        linarith
      constructor
      · have : (0 : ℚ) ≤ (i : ℚ) * ((duration - 100 / fps) / (n : ℚ)) * 2 := by
          have := mul_nonneg (mul_nonneg (Nat.cast_nonneg i) hitv.le) (by norm_num : (0:ℚ) ≤ 2)
          linarith
        linarith
      · have hle : (i : ℚ) * ((duration - 100 / fps) / (n : ℚ)) * 2 ≤
            ((n : ℚ) - 2) * ((duration - 100 / fps) / (n : ℚ)) := by
          have := mul_le_mul_of_nonneg_right h2iq hitv.le
          linarith [this]
        have hcancel : (n : ℚ) * ((duration - 100 / fps) / (n : ℚ)) =
            duration - 100 / fps := by
          rw [mul_div_assoc']
          rw [mul_comm]
          rw [mul_div_assoc]
          rw [div_self hnq.ne', mul_one]
        have hlt : ((n : ℚ) - 2) * ((duration - 100 / fps) / (n : ℚ)) <
            (n : ℚ) * ((duration - 100 / fps) / (n : ℚ)) :=
          mul_lt_mul_of_pos_right (by linarith) hitv
        linarith
    · simp only [List.mem_map, List.mem_range] at hrd
      obtain ⟨i, hi, rfl⟩ := hrd
      obtain ⟨hu0, hu1⟩ := hu i
      constructor
      · have : (0 : ℚ) ≤ u i * (duration - 100 / fps) := mul_nonneg hu0 hds.le
        linarith
      · have : u i * (duration - 100 / fps) < 1 * (duration - 100 / fps) :=
          mul_lt_mul_of_pos_right hu1 hds
        linarith

/-- Claim C4 (witness): the amended theorem applies at the concrete request
fps 1, duration 300, count 2 with all unit draws 0. -/
theorem combined_sorted_count_witness :
    (Extvid7.combined_timestamps 1 300 2 (fun _ => 0)).length = 2 :=
  (combined_sorted_count 1 300 2 (fun _ => 0) (by norm_num) (by norm_num)
    (by norm_num) (fun i => by norm_num)).1

/-- The without-replacement draw loop returns exactly k elements whenever
the population is large enough. -/
theorem sampleGo_length (tape : ℕ → ℕ) :
    ∀ (k : ℕ) (pop : List ℤ) (s : ℕ), k ≤ pop.length →
      (Extractor1.sampleGo tape pop k s).length = k := by
  intro k
  induction k with
  | zero => intro pop s _; rfl
  | succ k ih =>
    intro pop s hk
    have hpos : 0 < pop.length := by omega
    have hidx : tape s % pop.length < pop.length := Nat.mod_lt _ hpos
    have herase : (pop.eraseIdx (tape s % pop.length)).length = pop.length - 1 := by
      rw [List.length_eraseIdx]
      simp [hidx]
    simp only [Extractor1.sampleGo, List.length_cons]
    rw [ih (pop.eraseIdx (tape s % pop.length)) (s + 1) (by omega)]

/-- Every element returned by the without-replacement draw loop comes from
the population. -/
theorem sampleGo_mem (tape : ℕ → ℕ) :
    ∀ (k : ℕ) (pop : List ℤ) (s : ℕ), k ≤ pop.length →
      ∀ x ∈ Extractor1.sampleGo tape pop k s, x ∈ pop := by
  intro k
  induction k with
  | zero => intro pop s _ x hx; simp [Extractor1.sampleGo] at hx
  | succ k ih =>
    intro pop s hk x hx
    have hpos : 0 < pop.length := by omega
    have hidx : tape s % pop.length < pop.length := Nat.mod_lt _ hpos
    have herase : (pop.eraseIdx (tape s % pop.length)).length = pop.length - 1 := by
      rw [List.length_eraseIdx]
      simp [hidx]
    simp only [Extractor1.sampleGo, List.mem_cons] at hx
    rcases hx with rfl | hx
    · rw [List.getD_eq_getElem?_getD, List.getElem?_eq_getElem hidx]
      exact List.getElem_mem hidx
    · exact List.mem_of_mem_eraseIdx
        (ih (pop.eraseIdx (tape s % pop.length)) (s + 1) (by omega) x hx)

/-- Elements of the integer population range(60, int(duration - 60)) lie in
the usable interval [60, duration - 60]. -/
theorem population_bounds (duration : ℚ) (hd : 120 < duration) :
    ∀ x ∈ Extractor1.population duration,
      (60 : ℚ) ≤ (x : ℚ) ∧ (x : ℚ) ≤ duration - 60 := by
  intro x hx
  simp only [Extractor1.population, List.mem_map, List.mem_range] at hx
  obtain ⟨i, hi, rfl⟩ := hx
  have hfloor : pyInt (duration - 60) = ⌊duration - 60⌋ := by
    rw [pyInt, if_pos (by linarith)]
  constructor
  · push_cast
    linarith [Nat.cast_nonneg (α := ℚ) i]
  · have hiz : (i : ℤ) < pyInt (duration - 60) - 60 := Int.lt_toNat.mp hi
    have hle : (60 + (i : ℤ) : ℚ) ≤ ((⌊duration - 60⌋ : ℤ) : ℚ) - 1 := by
      rw [hfloor] at hiz
      have : (60 : ℤ) + i ≤ ⌊duration - 60⌋ - 1 := by omega
      exact_mod_cast this
    have hfl : ((⌊duration - 60⌋ : ℤ) : ℚ) ≤ duration - 60 := Int.floor_le _
    push_cast at hle ⊢
    linarith

/-- Claim C5 (counterexample): for the valid request duration 121 (121 > 120
= 2 * margin), count 4, av1frameextractor1.py draws with
random.sample(range(60, 61), 4) whose population has a single element, so
the call raises ValueError and no sequence of count timestamps is
returned. -/
theorem random_sample_overflow_fails :
    Extractor1.random_timestamps 121 4 (fun _ => 0) = none
      ∧ (120 : ℚ) < 121 := by
  have hpop : (Extractor1.population 121).length = 1 := by
    simp [Extractor1.population, pyInt]
  constructor
  · rw [Extractor1.random_timestamps, Extractor1.sample, if_neg]
    rw [hpop]
    norm_num
  · norm_num

/-- Claim C5 (amended): for a valid request with 120 < duration, the uniform
sampler of av1frameextractor.py returns exactly count timestamps, each
inside the usable interval [60, duration - 60), and the integer sampler of
av1frameextractor1.py does so too provided count does not exceed the size of
the integer population range(60, int(duration - 60)) (otherwise it raises);
with the same random tape (the same seed) the returned sequence is
identical. -/
theorem random_sampler_amended (duration : ℚ) (n : ℕ) (u : ℕ → ℚ)
    (t t2 : ℕ → ℕ) (hd : 120 < duration)
    (hu : ∀ i, 0 ≤ u i ∧ u i < 1)
    (hn : n ≤ (Extractor1.population duration).length)
    (ht : ∀ i, t i = t2 i) :
    (MultiFormat.random_timestamps duration n u).length = n
      ∧ (∀ x ∈ MultiFormat.random_timestamps duration n u,
          60 ≤ x ∧ x < duration - 60)
      ∧ (∃ l, Extractor1.random_timestamps duration n t = some l
          ∧ l.length = n
          ∧ ∀ x ∈ l, (60 : ℚ) ≤ (x : ℚ) ∧ (x : ℚ) ≤ duration - 60)
      ∧ Extractor1.random_timestamps duration n t =
          Extractor1.random_timestamps duration n t2 := by
  refine ⟨?_, ?_, ?_, ?_⟩
  · simp [MultiFormat.random_timestamps]
  · intro x hx
    simp only [MultiFormat.random_timestamps, List.mem_map, List.mem_range] at hx
    obtain ⟨i, hi, rfl⟩ := hx
    obtain ⟨h0, h1⟩ := hu i
    have hpos : (0 : ℚ) < (duration - 60) - 60 := by linarith
    constructor
    · have := mul_nonneg h0 hpos.le
      linarith
    · have := mul_lt_mul_of_pos_right h1 hpos
      linarith
  · refine ⟨Extractor1.sampleGo t (Extractor1.population duration) n 0, ?_, ?_, ?_⟩
    · rw [Extractor1.random_timestamps, Extractor1.sample, if_pos hn]
    · exact sampleGo_length t n _ 0 hn
    · intro x hx
      exact population_bounds duration hd x (sampleGo_mem t n _ 0 hn x hx)
  · rw [funext ht]

/-- Claim C5 (witness): the amended theorem applies at the concrete valid
request duration 123, count 2, with unit draws 1/2 and index draws 0. -/
theorem random_sampler_amended_witness :
    (MultiFormat.random_timestamps 123 2 (fun _ => 1 / 2)).length = 2
      ∧ ∃ l, Extractor1.random_timestamps 123 2 (fun _ => 0) = some l
          ∧ l.length = 2
          ∧ ∀ x ∈ l, (60 : ℚ) ≤ (x : ℚ) ∧ (x : ℚ) ≤ 123 - 60 := by
  have h := random_sampler_amended 123 2 (fun _ => 1 / 2) (fun _ => 0) (fun _ => 0)
    (by norm_num) (fun i => by norm_num)
    (by simp [Extractor1.population, pyInt]) (fun i => rfl)
  exact ⟨h.1, h.2.2.1⟩

/-- The strongest-edge selection only returns responses that occur in the
input list. -/
theorem top_edges_subset (xs : List ℚ) (k : ℕ) :
    ∀ x ∈ Extractor5.top_edges xs k, x ∈ xs := by
  intro x hx
  rw [Extractor5.top_edges] at hx
  split_ifs at hx with h
  · exact hx
  · exact (List.mergeSort_perm xs _).mem_iff.mp (List.mem_of_mem_take hx)

/-- Claim C6: an image of uniform intensity has Laplacian response zero at
every pixel, hence Laplacian variance exactly zero, and both blur
classifiers (av1frameextractor1.py, full-field variance, and
av1frameextractor5.py, strongest-edge variance) classify it as blurry under
every positive threshold. -/
theorem uniform_image_blurry (m n : ℕ) (c threshold : ℚ) (ht : 0 < threshold) :
    Extractor1.is_blurry (some ⟨m, n, fun _ _ => c⟩) threshold = Except.ok true
      ∧ Extractor5.is_blurry (some ⟨m, n, fun _ _ => c⟩) threshold 2 (1 / 10) = true := by
  constructor
  · simp only [Extractor1.is_blurry]
    rw [variance_of_zero _ (laplacianField_const m n c)]
    simp [ht]
  · simp only [Extractor5.is_blurry]
    have hzero : ∀ x ∈ laplacianField (Extractor5.downsample ⟨m, n, fun _ _ => c⟩ 2),
        x = 0 := laplacianField_const (m / 2) (n / 2) c
    have habs : ∀ y ∈ (laplacianField
        (Extractor5.downsample ⟨m, n, fun _ _ => c⟩ 2)).map (fun x => |x|), y = 0 := by
      intro y hy
      simp only [List.mem_map] at hy
      obtain ⟨x, hx, rfl⟩ := hy
      rw [hzero x hx]
      simp
    rw [variance_of_zero _ (fun y hy => habs y (top_edges_subset _ _ y hy))]
    simp [ht]

/-- Claim C6 (witness): the theorem applies at a concrete 2 x 2 black image
with threshold 100. -/
theorem uniform_image_blurry_witness :
    Extractor1.is_blurry (some ⟨2, 2, fun _ _ => 0⟩) 100 = Except.ok true
      ∧ Extractor5.is_blurry (some ⟨2, 2, fun _ _ => 0⟩) 100 2 (1 / 10) = true :=
  uniform_image_blurry 2 2 0 100 (by norm_num)

/-- Claim C7 (counterexample): is_blurry of av1frameextractor1.py has no
try/except; on an undecodable image (cv2.imread returning None) the
grayscale conversion raises and the exception escapes the classifier
instead of a blurry verdict being returned. -/
theorem classifier_error_raises :
    Extractor1.is_blurry none 100 = Except.error () := rfl

/-- Claim C7 (amended): the classifiers of av1frameextractor3/4/5.py catch
every processing failure and return the blurry verdict, but the classifier
of av1frameextractor1.py raises on an undecodable image and its caller
process_video catches only CalledProcessError, so the exception
propagates. -/
theorem classifier_error_policy_amended (threshold ep : ℚ) (df : ℕ) :
    Extractor5.is_blurry none threshold df ep = true
      ∧ Extractor1.is_blurry none threshold = Except.error () :=
  ⟨rfl, rfl⟩

/-- The retry loop never invokes the decoder more often than its fuel
allows. -/
theorem retry_run_le (out : ℕ → Extractor3.AttemptOutcome) :
    ∀ (r a : ℕ), (Extractor3.retry_run out a r).1 ≤ r := by
  intro r
  induction r with
  | zero => intro a; exact le_refl 0
  | succ r ih =>
    intro a
    cases hout : out a with
    | sharp => simp [Extractor3.retry_run, hout]
    | decodeFail =>
        simp only [Extractor3.retry_run, hout]
        exact Nat.succ_le_succ (ih (a + 1))
    | blurryFrame =>
        simp only [Extractor3.retry_run, hout]
        exact Nat.succ_le_succ (ih (a + 1))

/-- When every attempt within the fuel fails or is rejected, the retry loop
invokes the decoder exactly fuel times and accepts nothing. -/
theorem retry_run_all_bad (out : ℕ → Extractor3.AttemptOutcome) :
    ∀ (r a : ℕ), (∀ i, i < r → out (a + i) ≠ Extractor3.AttemptOutcome.sharp) →
      Extractor3.retry_run out a r = (r, false) := by
  intro r
  induction r with
  | zero => intro a _; rfl
  | succ r ih =>
    intro a h
    have h0 : out a ≠ Extractor3.AttemptOutcome.sharp := by
      have := h 0 (by omega)
      simpa using this
    have ht : Extractor3.retry_run out (a + 1) r = (r, false) := by
      apply ih
      intro i hi
      have := h (i + 1) (by omega)
      rwa [show a + (i + 1) = a + 1 + i by omega] at this
    cases hout : out a with
    | sharp => exact absurd hout h0
    | decodeFail => simp [Extractor3.retry_run, hout, ht]
    | blurryFrame => simp [Extractor3.retry_run, hout, ht]

/-- Claim C8: when the output file is not an existing accepted frame and the
decoder invocation fails (or the frame is rejected as blurry) at every
attempt, extract_frame invokes the decoder exactly max_retries = 3 times at
the same timestamp and then reports the timestamp as abandoned; on every
input the invocation count is bounded by 3, and the batch loop always
produces one result per timestamp, so no failure aborts the remaining
timestamps. -/
theorem retry_bound_three (file_present existing_blurry : Bool)
    (out : ℕ → Extractor3.AttemptOutcome)
    (hfresh : file_present = false ∨ existing_blurry = true)
    (h0 : out 0 ≠ Extractor3.AttemptOutcome.sharp)
    (h1 : out 1 ≠ Extractor3.AttemptOutcome.sharp)
    (h2 : out 2 ≠ Extractor3.AttemptOutcome.sharp) :
    (Extractor3.extract_frame file_present existing_blurry out).invocations = 3
      ∧ (Extractor3.extract_frame file_present existing_blurry out).abandoned = true
      ∧ (∀ (fp eb : Bool) (o : ℕ → Extractor3.AttemptOutcome),
          (Extractor3.extract_frame fp eb o).invocations ≤ 3)
      ∧ (∀ (ts : List ℚ) (fp eb : ℚ → Bool)
          (o : ℚ → ℕ → Extractor3.AttemptOutcome),
          (Extractor3.process_batch ts fp eb o).length = ts.length) := by
  have hcond : (file_present && !existing_blurry) = false := by
    rcases hfresh with rfl | rfl <;> simp
  have hrun : Extractor3.retry_run out 0 Extractor3.max_retries = (3, false) := by
    apply retry_run_all_bad
    intro i hi
    have hi3 : i < 3 := hi
    interval_cases i
    · simpa using h0
    · simpa using h1
    · simpa using h2
  refine ⟨?_, ?_, ?_, ?_⟩
  · rw [Extractor3.extract_frame, hcond]
    simp [hrun]
  · rw [Extractor3.extract_frame, hcond]
    simp [hrun]
  · intro fp eb o
    rw [Extractor3.extract_frame]
    cases hfe : (fp && !eb)
    · simp only [Bool.false_eq_true, if_false]
      exact retry_run_le o Extractor3.max_retries 0
    · simp
  · intro ts fp eb o
    simp [Extractor3.process_batch]

/-- Claim C8 (witness): the theorem applies with no pre-existing output file
and a decoder that exits non-zero on every attempt. -/
theorem retry_bound_three_witness :
    (Extractor3.extract_frame false false
        (fun _ => Extractor3.AttemptOutcome.decodeFail)).invocations = 3
      ∧ (Extractor3.extract_frame false false
        (fun _ => Extractor3.AttemptOutcome.decodeFail)).abandoned = true :=
  ⟨(retry_bound_three false false (fun _ => Extractor3.AttemptOutcome.decodeFail)
      (Or.inl rfl) (by decide) (by decide) (by decide)).1,
   (retry_bound_three false false (fun _ => Extractor3.AttemptOutcome.decodeFail)
      (Or.inl rfl) (by decide) (by decide) (by decide)).2.1⟩

/-- Claim C10: when the output image file already exists and is classified
non-blurry, extract_frame of av1frameextractor3.py and
av1frameextractor4.py returns at once: the decoder is never invoked (so the
existing file is not overwritten), the existing frame counts as accepted,
and no abandonment is reported; extract_frame contains no delete call on
any path. -/
theorem existing_sharp_frame_skipped (out : ℕ → Extractor3.AttemptOutcome) :
    (Extractor3.extract_frame true false out).invocations = 0
      ∧ (Extractor3.extract_frame true false out).accepted = true
      ∧ (Extractor3.extract_frame true false out).abandoned = false :=
  ⟨rfl, rfl, rfl⟩

/-- Claim C9 (counterexample): with every probe field present except
nb_frames, get_video_info of extvid7.py does not treat the probe as failed:
it returns a metadata record substituting the default 0 for the missing
frame count. -/
theorem missing_nb_frames_defaults_zero :
    Extvid7.get_video_info ⟨true, some 300, none, some 30, some 1920, some 1080⟩ =
        some ⟨300, 0, 30, 1920, 1080⟩
      ∧ Extvid7.get_video_info ⟨true, some 300, none, some 30, some 1920, some 1080⟩ ≠
        none := by
  refine ⟨rfl, ?_⟩
  simp [Extvid7.get_video_info]

/-- Claim C9 (amended): get_video_info of extvid7.py returns None (probe
failure) when the video stream or the duration, frame-rate, width or height
field is missing, but a missing nb_frames field is replaced by the default
0 in an otherwise successful probe; vid_info of vidinfo.py likewise
substitutes the default 600 for a missing duration field. -/
theorem probe_missing_field_behaviour (d fr : Option ℚ) (nb : Option ℤ)
    (w h : Option ℕ) :
    Extvid7.get_video_info ⟨true, none, nb, fr, w, h⟩ = none
      ∧ Extvid7.get_video_info ⟨true, d, nb, none, w, h⟩ = none
      ∧ Extvid7.get_video_info ⟨true, d, nb, fr, none, h⟩ = none
      ∧ Extvid7.get_video_info ⟨true, d, nb, fr, w, none⟩ = none
      ∧ Extvid7.get_video_info ⟨false, d, nb, fr, w, h⟩ = none
      ∧ (∀ (dv frv : ℚ) (wv hv : ℕ),
          Extvid7.get_video_info ⟨true, some dv, none, some frv, some wv, some hv⟩ =
            some ⟨dv, 0, frv, wv, hv⟩)
      ∧ Vidinfo.duration_value none = 600 := by
  refine ⟨rfl, ?_, ?_, ?_, rfl, fun dv frv wv hv => rfl, rfl⟩
  · rcases d with _ | dv <;> rfl
  · rcases d with _ | dv <;> rcases fr with _ | frv <;> rfl
  · rcases d with _ | dv <;> rcases fr with _ | frv <;> rcases w with _ | wv <;> rfl

end VideoSpec
